import Mathlib

/-
Shallow embedding of the Game of Life grid engine from src/src/lib.rs
(crate wasm_game_of_life): the Cell enum, the Universe struct and its
methods new, set_width, set_height, tick, get_index, live_neighbor_count,
toggle_cell and set_cells.  Machine integers (u32/u8/usize) are modelled
as Nat; `Vec<Cell>` as `List Cell`; a Rust panic on an out-of-bounds
`Vec` index is modelled by an `Option` result on the operations where it
can occur from caller input (toggle_cell, set_cells).
-/

set_option maxHeartbeats 1000000

/-- Cell from the source: two states, Dead = 0 and Alive = 1 (repr(u8)). -/
inductive Cell : Type where
  | Dead : Cell
  | Alive : Cell
deriving DecidableEq, Repr

instance : Fintype Cell where
  elems := ⟨[Cell.Dead, Cell.Alive], by decide⟩
  complete := by intro x; cases x <;> decide

/-- The `as u8` cast of a Cell: Dead is 0, Alive is 1. -/
def Cell.toU8 : Cell → Nat
  | Cell.Dead => 0
  | Cell.Alive => 1

/-- Cell.toggle from the source: match the current state and invert it. -/
def Cell.toggle : Cell → Cell
  | Cell.Alive => Cell.Dead
  | Cell.Dead => Cell.Alive

/-- Universe from the source: a width, a height and a flat row-major vector of cells. -/
structure Universe : Type where
  width : Nat
  height : Nat
  cells : List Cell
deriving DecidableEq, Repr

namespace Universe

/-- get_index from the source: idx = row * width + col. -/
def get_index (g : Universe) (row column : Nat) : Nat :=
  row * g.width + column

/-- live_neighbor_count from the source: fold over the delta value lists
[height - 1, 0, 1] and [width - 1, 0, 1], skip the iteration whose two
delta values are both 0, wrap each neighbor coordinate with `%` and add
the u8 value of the cell found there. -/
def live_neighbor_count (g : Universe) (row column : Nat) : Nat :=
  [g.height - 1, 0, 1].foldl (fun count delta_row =>
    [g.width - 1, 0, 1].foldl (fun count delta_col =>
      if delta_row = 0 ∧ delta_col = 0 then count
      else
        let neighbor_row := (row + delta_row) % g.height
        let neighbor_col := (column + delta_col) % g.width
        let idx := g.get_index neighbor_row neighbor_col
        count + (g.cells.getD idx Cell.Dead).toU8) count) 0

/-- The match expression in the body of tick (rules 1-4 plus the
catch-all arm), with the guards tried in source order. -/
def next_cell (cell : Cell) (neighbors_alive : Nat) : Cell :=
  if cell = Cell.Alive ∧ neighbors_alive < 2 then Cell.Dead
  else if (cell = Cell.Alive ∧ neighbors_alive = 2) ∨
          (cell = Cell.Alive ∧ neighbors_alive = 3) then Cell.Alive
  else if cell = Cell.Alive ∧ neighbors_alive > 3 then Cell.Dead
  else if cell = Cell.Dead ∧ neighbors_alive = 3 then Cell.Alive
  else cell

/-- tick from the source: start from a clone `next` of the cell vector,
loop over every (row, col) of the grid, read the current cell and its
live-neighbor count from the untouched `self.cells`, write the matched
next state into `next` at the same flat index, and finally replace the
cell vector with `next`. -/
def tick (g : Universe) : Universe :=
  let next := (List.range g.height).foldl (fun next row =>
    (List.range g.width).foldl (fun next col =>
      let idx := g.get_index row col
      let cell := g.cells.getD idx Cell.Dead
      let neighbors_alive := g.live_neighbor_count row col
      next.set idx (next_cell cell neighbors_alive)) next) g.cells
  { g with cells := next }

/-- The number of times the loop body of tick runs, hence the number of
calls tick makes to live_neighbor_count: one per iteration of the nested
row/column loops. -/
def tick_lnc_calls (g : Universe) : Nat :=
  (List.range g.height).foldl (fun n _row =>
    (List.range g.width).foldl (fun m _col => m + 1) n) 0

/-- toggle_cell from the source: compute the flat index and toggle the
cell there; the Rust `self.cells[idx]` panics when idx is out of bounds,
modelled as `none`. -/
def toggle_cell (g : Universe) (row col : Nat) : Option Universe :=
  let idx := g.get_index row col
  if h : idx < g.cells.length then
    some { g with cells := g.cells.set idx (g.cells.get ⟨idx, h⟩).toggle }
  else none

/-- set_width from the source: store the new width and rebuild the cell
vector as width * height Dead cells. -/
def set_width (g : Universe) (width : Nat) : Universe :=
  { g with width := width
           cells := (List.range (width * g.height)).map fun _i => Cell.Dead }

/-- set_height from the source: store the new height and rebuild the
cell vector as width * height Dead cells. -/
def set_height (g : Universe) (height : Nat) : Universe :=
  { g with height := height
           cells := (List.range (g.width * height)).map fun _i => Cell.Dead }

/-- set_cells from the source: walk the list of (row, col) pairs in
order and set each named cell Alive; `self.cells[idx]` panics on an
out-of-bounds flat index, modelled as `none`. -/
def set_cells (g : Universe) : List (Nat × Nat) → Option Universe
  | [] => some g
  | p :: rest =>
    let idx := g.get_index p.1 p.2
    if idx < g.cells.length then
      set_cells { g with cells := g.cells.set idx Cell.Alive } rest
    else none

/-- Universe::new from the source: a 64 x 64 grid whose cell at flat
index i is Alive when i % 2 = 0 or i % 7 = 0, else Dead (the panic-hook
initialization is an external side effect with no engine state). -/
def new : Universe :=
  let height := 64
  let width := 64
  let cells := (List.range (width * height)).map fun i =>
    if i % 2 = 0 ∨ i % 7 = 0 then Cell.Alive else Cell.Dead
  { width := width, height := height, cells := cells }

end Universe

/-- The 2 x 2 fully-Alive grid (the "block" of the spec's stability test). -/
def block2 : Universe :=
  ⟨2, 2, [Cell.Alive, Cell.Alive, Cell.Alive, Cell.Alive]⟩

/-- The 2 x 2 fully-Dead grid. -/
def deadBlock2 : Universe :=
  ⟨2, 2, [Cell.Dead, Cell.Dead, Cell.Dead, Cell.Dead]⟩

/-- The 3 x 3 grid with (0,1), (1,1), (2,1) Alive: the vertical blinker. -/
def blinkerV : Universe :=
  ⟨3, 3, [Cell.Dead, Cell.Alive, Cell.Dead,
          Cell.Dead, Cell.Alive, Cell.Dead,
          Cell.Dead, Cell.Alive, Cell.Dead]⟩

/-- The 3 x 3 grid with (1,0), (1,1), (1,2) Alive: the horizontal blinker. -/
def blinkerH : Universe :=
  ⟨3, 3, [Cell.Dead, Cell.Dead, Cell.Dead,
          Cell.Alive, Cell.Alive, Cell.Alive,
          Cell.Dead, Cell.Dead, Cell.Dead]⟩

/-- The 3 x 3 fully-Alive grid. -/
def allAlive3 : Universe :=
  ⟨3, 3, [Cell.Alive, Cell.Alive, Cell.Alive,
          Cell.Alive, Cell.Alive, Cell.Alive,
          Cell.Alive, Cell.Alive, Cell.Alive]⟩

/-- The 3 x 3 fully-Dead grid. -/
def allDead3 : Universe :=
  ⟨3, 3, [Cell.Dead, Cell.Dead, Cell.Dead,
          Cell.Dead, Cell.Dead, Cell.Dead,
          Cell.Dead, Cell.Dead, Cell.Dead]⟩

/-- Modelled from the spec, section 4.4: the rule table giving the next
state of a cell from its current state and its live-neighbor count. -/
def spec_rule (current : Cell) (live_neighbors : Nat) : Cell :=
  if current = Cell.Alive ∧ live_neighbors < 2 then Cell.Dead
  else if current = Cell.Alive ∧ (live_neighbors = 2 ∨ live_neighbors = 3) then Cell.Alive
  else if current = Cell.Alive ∧ live_neighbors > 3 then Cell.Dead
  else if current = Cell.Dead ∧ live_neighbors = 3 then Cell.Alive
  else current

/-- Modelled from the spec, section 4.4: the next generation as one
row-major pass that applies the rule table to every cell, every
live-neighbor count taken against the pre-tick grid. -/
def spec_generation (g : Universe) : List Cell :=
  (List.range (g.height * g.width)).map fun i =>
    spec_rule (g.cells.getD i Cell.Dead)
      (g.live_neighbor_count (i / g.width) (i % g.width))

/-
Theorems.
-/

/-- C10: on a 1 x 1 grid the delta lists both degenerate to [0, 0, 1], only
the four delta pairs whose two values are the literal 0 are skipped, and the
five remaining offsets all address the single cell (0,0) itself, so
live_neighbor_count returns 5 when that cell is Alive and 0 when it is
Dead. -/
theorem C10_degenerate_self_neighbors :
    (⟨1, 1, [Cell.Alive]⟩ : Universe).live_neighbor_count 0 0 = 5 ∧
    (⟨1, 1, [Cell.Dead]⟩ : Universe).live_neighbor_count 0 0 = 0 := by
  decide

/-- C2: counterexample — on the 2 x 2 fully-Alive grid, live_neighbor_count
returns 8 (every wrapped offset lands on an alive cell and is counted with
multiplicity), not 3, and one tick kills every cell, so the grid is not a
fixed point of tick. -/
theorem C2_counterexample :
    block2.live_neighbor_count 0 0 = 8 ∧ block2.tick ≠ block2 := by
  decide

/-- C2: amended — on the 2 x 2 fully-Alive grid every cell's
live_neighbor_count is 8, so one tick turns every cell Dead (overpopulation)
and the grid then stays fully Dead forever: the all-Alive 2 x 2 grid is not
a fixed point of tick; the all-Dead grid reached after one tick is. -/
theorem C2_amended_block_dies :
    block2.live_neighbor_count 0 0 = 8 ∧ block2.live_neighbor_count 0 1 = 8 ∧
    block2.live_neighbor_count 1 0 = 8 ∧ block2.live_neighbor_count 1 1 = 8 ∧
    block2.tick = deadBlock2 ∧
    ∀ n : Nat, Universe.tick^[n + 1] block2 = deadBlock2 := by
  have hdead : deadBlock2.tick = deadBlock2 := by decide
  refine ⟨by decide, by decide, by decide, by decide, by decide, ?_⟩
  intro n
  induction n with
  | zero => simpa using (by decide : block2.tick = deadBlock2)
  | succ n ih => rw [Function.iterate_succ_apply', ih, hdead]

/-- C3: counterexample — one tick of the vertical blinker on the 3 x 3
torus gives the fully-Alive grid (every Dead cell sees the whole alive
column among its wrapped neighbors), not the horizontal blinker, and two
ticks do not restore the original pattern. -/
theorem C3_counterexample :
    blinkerV.tick = allAlive3 ∧ blinkerV.tick ≠ blinkerH ∧
    blinkerV.tick.tick ≠ blinkerV := by
  decide

/-- C3: amended — on the 3 x 3 torus the vertical blinker is not a period-2
oscillator: one tick yields the fully-Alive grid, a second tick yields the
fully-Dead grid (every cell then has 8 live neighbors), and the fully-Dead
grid is a fixed point of tick. -/
theorem C3_amended_blinker_explodes :
    blinkerV.tick = allAlive3 ∧ allAlive3.tick = allDead3 ∧
    blinkerV.tick.tick = allDead3 ∧ allDead3.tick = allDead3 := by
  decide

/-- C4: counterexample — on the 3 x 3 all-Dead grid the pair (0,3) is out
of range (column 3 is not below width 3), yet toggle_cell 0 3 and
set_cells [(0,3)] both succeed without signalling any error and silently
modify the in-range cell (1,0), whose flat index is the same value 3. -/
theorem C4_counterexample :
    allDead3.toggle_cell 0 3 =
      some ⟨3, 3, [Cell.Dead, Cell.Dead, Cell.Dead,
                   Cell.Alive, Cell.Dead, Cell.Dead,
                   Cell.Dead, Cell.Dead, Cell.Dead]⟩ ∧
    allDead3.set_cells [(0, 3)] =
      some ⟨3, 3, [Cell.Dead, Cell.Dead, Cell.Dead,
                   Cell.Alive, Cell.Dead, Cell.Dead,
                   Cell.Dead, Cell.Dead, Cell.Dead]⟩ := by
  decide

/-- C7: toroidal wraparound — for every 3 x 3 grid whose cell (0,0) is
Dead, toggling (0,0) Alive increases live_neighbor_count at the opposite
corner (2,2) by exactly 1, since each neighbor coordinate is reduced
modulo the height and width. -/
theorem C7_toroidal_wraparound :
    ∀ c1 c2 c3 c4 c5 c6 c7 c8 : Cell,
      (Universe.toggle_cell ⟨3, 3, [Cell.Dead, c1, c2, c3, c4, c5, c6, c7, c8]⟩ 0 0).map
          (fun g => g.live_neighbor_count 2 2) =
        some ((⟨3, 3, [Cell.Dead, c1, c2, c3, c4, c5, c6, c7, c8]⟩ : Universe).live_neighbor_count 2 2
          + 1) := by
  decide

/-- A fold whose step returns its accumulator unchanged is the identity. -/
lemma foldl_self {α β : Type} (l : List α) (b : β) :
    l.foldl (fun x _ => x) b = b := by
  induction l generalizing b with
  | nil => rfl
  | cons x xs ih => simp only [List.foldl_cons]; exact ih b

/-- C5: on a grid with width = 0 or height = 0, tick is a no-op — it
returns the grid unchanged — and its loop body, the only site calling
live_neighbor_count, runs zero times, so no arithmetic on a zero
dimension is performed. -/
theorem C5_degenerate_tick_noop (g : Universe)
    (hz : g.width = 0 ∨ g.height = 0) :
    g.tick = g ∧ g.tick_lnc_calls = 0 := by
  rcases hz with h0 | h0 <;>
    refine ⟨?_, ?_⟩ <;>
      simp only [Universe.tick, Universe.tick_lnc_calls, h0, List.range_zero,
        List.foldl_nil, foldl_self] <;>
    first
      | rfl
      | rw [← h0]

/-- C5 witness: the 0 x 3 empty grid. -/
theorem C5_degenerate_tick_noop_witness :
    ((⟨0, 3, []⟩ : Universe).width = 0 ∨ (⟨0, 3, []⟩ : Universe).height = 0) ∧
    (⟨0, 3, []⟩ : Universe).tick = ⟨0, 3, []⟩ ∧
    (⟨0, 3, []⟩ : Universe).tick_lnc_calls = 0 :=
  ⟨Or.inl rfl, C5_degenerate_tick_noop ⟨0, 3, []⟩ (Or.inl rfl)⟩

/-- C8: set_width w makes the width w, keeps the height, and rebuilds the
cell vector as w * height Dead cells — a hard reset discarding the prior
pattern; set_height is symmetric. -/
theorem C8_resize_hard_reset :
    ∀ (g : Universe) (w h : Nat),
      g.set_width w = ⟨w, g.height, List.replicate (w * g.height) Cell.Dead⟩ ∧
      g.set_height h = ⟨g.width, h, List.replicate (g.width * h) Cell.Dead⟩ := by
  intro g w h
  constructor <;>
    simp [Universe.set_width, Universe.set_height, Universe.mk.injEq,
      List.map_const', List.length_range]

/-- The flat index of an in-range (row, col) lies within an
invariant-respecting cell vector. -/
lemma get_index_lt (g : Universe) {row col : Nat}
    (hinv : g.cells.length = g.width * g.height)
    (hr : row < g.height) (hc : col < g.width) :
    g.get_index row col < g.cells.length := by
  show row * g.width + col < g.cells.length
  rw [hinv, Nat.mul_comm g.width g.height]
  calc row * g.width + col < (row + 1) * g.width := by
        rw [Nat.add_mul, Nat.one_mul]; omega
    _ ≤ g.height * g.width := Nat.mul_le_mul_right g.width hr

/-- toggle_cell on an in-bounds flat index sets that index to the
toggled cell. -/
lemma toggle_cell_some (g : Universe) {row col : Nat}
    (hlt : g.get_index row col < g.cells.length) :
    g.toggle_cell row col = some { g with cells :=
      (g.cells.set (g.get_index row col)
        ((g.cells.getD (g.get_index row col) Cell.Dead).toggle)) } := by
  unfold Universe.toggle_cell
  rw [dif_pos hlt, List.getD_eq_getElem g.cells Cell.Dead hlt,
    List.get_eq_getElem]

/-- toggle_cell on an out-of-bounds flat index signals the panic. -/
lemma toggle_cell_none (g : Universe) {row col : Nat}
    (hge : ¬ g.get_index row col < g.cells.length) :
    g.toggle_cell row col = none := by
  unfold Universe.toggle_cell
  rw [dif_neg hge]

/-- set_cells with one in-bounds pair sets that flat index Alive. -/
lemma set_cells_one_some (g : Universe) {row col : Nat}
    (hlt : g.get_index row col < g.cells.length) :
    g.set_cells [(row, col)] = some { g with cells :=
      (g.cells.set (g.get_index row col) Cell.Alive) } := by
  simp only [Universe.set_cells]
  rw [if_pos hlt]

/-- set_cells with one out-of-bounds pair signals the panic. -/
lemma set_cells_one_none (g : Universe) {row col : Nat}
    (hge : ¬ g.get_index row col < g.cells.length) :
    g.set_cells [(row, col)] = none := by
  simp only [Universe.set_cells]
  rw [if_neg hge]

/-- C4: amended — toggle_cell and set_cells signal an error exactly when
the computed flat index row * width + column falls outside the cell
vector; an out-of-range (row, column) whose flat index is still in
bounds (for example column ≥ width on a multi-row grid) is not rejected:
the operation silently modifies the in-range cell at that flat index.
toggle_cell height 0 does always signal an error on a grid satisfying
the length invariant. -/
theorem C4_amended_flat_index_errors (g : Universe) (row col : Nat) :
    (row * g.width + col < g.cells.length →
      ∃ g', g.toggle_cell row col = some g' ∧ g'.width = g.width ∧
        g'.height = g.height ∧
        g'.cells = g.cells.set (row * g.width + col)
          ((g.cells.getD (row * g.width + col) Cell.Dead).toggle) ∧
        g.set_cells [(row, col)] = some { g with cells :=
          (g.cells.set (row * g.width + col) Cell.Alive) }) ∧
    (g.cells.length ≤ row * g.width + col →
      g.toggle_cell row col = none ∧ g.set_cells [(row, col)] = none) ∧
    (g.cells.length = g.width * g.height →
      g.toggle_cell g.height 0 = none) := by
  refine ⟨fun hlt => ?_, fun hge => ?_, fun hinv => ?_⟩
  · exact ⟨_, toggle_cell_some g hlt, rfl, rfl, rfl, set_cells_one_some g hlt⟩
  · refine ⟨toggle_cell_none g ?_, set_cells_one_none g ?_⟩ <;>
      · show ¬ row * g.width + col < g.cells.length
        omega
  · apply toggle_cell_none
    show ¬ g.height * g.width + 0 < g.cells.length
    have hc : g.height * g.width = g.width * g.height := Nat.mul_comm _ _
    omega

/-- C4 witness: the 3 x 3 all-Dead grid with the out-of-range pairs
(0,3) (in-bounds flat index, silently accepted) and (3,0) (out-of-bounds
flat index, rejected). -/
theorem C4_amended_flat_index_errors_witness :
    (∃ g', allDead3.toggle_cell 0 3 = some g' ∧ g'.width = allDead3.width ∧
      g'.height = allDead3.height ∧
      g'.cells = allDead3.cells.set (0 * allDead3.width + 3)
        ((allDead3.cells.getD (0 * allDead3.width + 3) Cell.Dead).toggle) ∧
      allDead3.set_cells [(0, 3)] = some { allDead3 with cells :=
        (allDead3.cells.set (0 * allDead3.width + 3) Cell.Alive) }) ∧
    (allDead3.toggle_cell 3 0 = none ∧ allDead3.set_cells [(3, 0)] = none) ∧
    allDead3.toggle_cell allDead3.height 0 = none :=
  ⟨(C4_amended_flat_index_errors allDead3 0 3).1 (by decide),
   (C4_amended_flat_index_errors allDead3 3 0).2.1 (by decide),
   (C4_amended_flat_index_errors allDead3 3 0).2.2 (by decide)⟩

/-- Two universes with the same width, height and cells are equal. -/
lemma Universe.eq_of_fields {g₁ g₂ : Universe} (hw : g₁.width = g₂.width)
    (hh : g₁.height = g₂.height) (hc : g₁.cells = g₂.cells) : g₁ = g₂ := by
  cases g₁
  cases g₂
  simp_all

/-- set_cells on in-range pairs succeeds and sets exactly the listed
flat indices to Alive, keeping the dimensions, the vector length and
every other position unchanged. -/
lemma set_cells_spec :
    ∀ (l : List (Nat × Nat)) (g : Universe),
      g.cells.length = g.width * g.height →
      (∀ p ∈ l, p.1 < g.height ∧ p.2 < g.width) →
      ∃ g', g.set_cells l = some g' ∧ g'.width = g.width ∧
        g'.height = g.height ∧ g'.cells.length = g.cells.length ∧
        ∀ j : Nat, g'.cells[j]? =
          if ∃ p ∈ l, p.1 * g.width + p.2 = j then some Cell.Alive
          else g.cells[j]? := by
  intro l
  induction l with
  | nil =>
    intro g hinv _
    exact ⟨g, rfl, rfl, rfl, rfl, fun j => by simp⟩
  | cons p rest ih =>
    intro g hinv hr
    have hp := hr p (List.mem_cons_self p rest)
    have hlt : g.get_index p.1 p.2 < g.cells.length :=
      get_index_lt g hinv hp.1 hp.2
    have hstep : g.set_cells (p :: rest) =
        Universe.set_cells
          { g with cells := (g.cells.set (g.get_index p.1 p.2) Cell.Alive) }
          rest := by
      simp only [Universe.set_cells]
      rw [if_pos hlt]
    have hinv₂ : (g.cells.set (g.get_index p.1 p.2) Cell.Alive).length =
        g.width * g.height := by
      rw [List.length_set]
      exact hinv
    obtain ⟨g', hsc, hw', hh', hlen', hget⟩ :=
      ih { g with cells := (g.cells.set (g.get_index p.1 p.2) Cell.Alive) }
        hinv₂ (fun q hq => hr q (List.mem_cons_of_mem p hq))
    have hget' : ∀ j : Nat, g'.cells[j]? =
        if ∃ q ∈ rest, q.1 * g.width + q.2 = j then some Cell.Alive
        else (g.cells.set (g.get_index p.1 p.2) Cell.Alive)[j]? := hget
    refine ⟨g', by rw [hstep]; exact hsc, hw', hh',
      by rw [hlen', List.length_set], fun j => ?_⟩
    by_cases hrest : ∃ q ∈ rest, q.1 * g.width + q.2 = j
    · obtain ⟨q, hq, he⟩ := hrest
      rw [hget' j, if_pos ⟨q, hq, he⟩,
        if_pos ⟨q, List.mem_cons_of_mem p hq, he⟩]
    · rw [hget' j, if_neg hrest]
      by_cases hpj : g.get_index p.1 p.2 = j
      · rw [if_pos ⟨p, List.mem_cons_self p rest, hpj⟩, ← hpj,
          List.getElem?_set]
        simp [hlt]
      · have hnone : ¬ ∃ q ∈ p :: rest, q.1 * g.width + q.2 = j := by
          rintro ⟨q, hq, he⟩
          rcases List.mem_cons.mp hq with rfl | hq'
          · exact hpj he
          · exact hrest ⟨q, hq', he⟩
        rw [if_neg hnone, List.getElem?_set_ne hpj]

/-- A fold whose every step preserves the accumulator's length
preserves it overall. -/
lemma length_foldl_preserve {β : Type} (step : List Cell → β → List Cell)
    (hstep : ∀ a x, (step a x).length = a.length) (l : List β) :
    ∀ acc : List Cell, (l.foldl step acc).length = acc.length := by
  induction l with
  | nil => intro acc; rfl
  | cons x xs ih => intro acc; rw [List.foldl_cons, ih, hstep]

/-- tick preserves the length of the cell vector. -/
lemma tick_cells_length (g : Universe) :
    g.tick.cells.length = g.cells.length := by
  show ((List.range g.height).foldl (fun next row =>
    (List.range g.width).foldl (fun next col =>
      next.set (g.get_index row col)
        (Universe.next_cell (g.cells.getD (g.get_index row col) Cell.Dead)
          (g.live_neighbor_count row col))) next) g.cells).length =
    g.cells.length
  exact length_foldl_preserve _
    (fun a row => length_foldl_preserve _
      (fun a2 col => List.length_set a2 _ _) (List.range g.width) a)
    (List.range g.height) g.cells

/-- C6: every public operation preserves the invariant
cells.length = width * height — new establishes it, tick preserves it,
toggle_cell and set_cells on in-range input preserve it, and set_width
and set_height re-establish it in the same call. -/
theorem C6_invariant_preserved :
    Universe.new.cells.length = Universe.new.width * Universe.new.height ∧
    (∀ g : Universe, g.cells.length = g.width * g.height →
      g.tick.cells.length = g.tick.width * g.tick.height) ∧
    (∀ (g : Universe) (row col : Nat), g.cells.length = g.width * g.height →
      row < g.height → col < g.width →
      ∃ g', g.toggle_cell row col = some g' ∧
        g'.cells.length = g'.width * g'.height) ∧
    (∀ (g : Universe) (l : List (Nat × Nat)),
      g.cells.length = g.width * g.height →
      (∀ p ∈ l, p.1 < g.height ∧ p.2 < g.width) →
      ∃ g', g.set_cells l = some g' ∧
        g'.cells.length = g'.width * g'.height) ∧
    (∀ (g : Universe) (w : Nat),
      (g.set_width w).cells.length =
        (g.set_width w).width * (g.set_width w).height) ∧
    (∀ (g : Universe) (h : Nat),
      (g.set_height h).cells.length =
        (g.set_height h).width * (g.set_height h).height) := by
  refine ⟨?_, ?_, ?_, ?_, ?_, ?_⟩
  · simp [Universe.new]
  · intro g hinv
    show g.tick.cells.length = g.width * g.height
    rw [tick_cells_length]
    exact hinv
  · intro g row col hinv hr hc
    have hlt := get_index_lt g hinv hr hc
    refine ⟨_, toggle_cell_some g hlt, ?_⟩
    show (g.cells.set _ _).length = g.width * g.height
    rw [List.length_set]
    exact hinv
  · intro g l hinv hl
    obtain ⟨g', h1, hw, hh, hlen, -⟩ := set_cells_spec l g hinv hl
    exact ⟨g', h1, by rw [hlen, hw, hh]; exact hinv⟩
  · intro g w
    show ((List.range (w * g.height)).map fun _i => Cell.Dead).length =
      w * g.height
    simp
  · intro g h
    show ((List.range (g.width * h)).map fun _i => Cell.Dead).length =
      g.width * h
    simp

/-- C6 witness: the vertical blinker grid under tick, toggle_cell and
set_cells. -/
theorem C6_invariant_preserved_witness :
    blinkerV.tick.cells.length = blinkerV.tick.width * blinkerV.tick.height ∧
    (∃ g', blinkerV.toggle_cell 1 2 = some g' ∧
      g'.cells.length = g'.width * g'.height) ∧
    (∃ g', blinkerV.set_cells [(0, 0), (2, 2)] = some g' ∧
      g'.cells.length = g'.width * g'.height) :=
  ⟨C6_invariant_preserved.2.1 blinkerV (by decide),
   C6_invariant_preserved.2.2.1 blinkerV 1 2 (by decide) (by decide) (by decide),
   C6_invariant_preserved.2.2.2.1 blinkerV [(0, 0), (2, 2)] (by decide) (by decide)⟩

/-- C9: set_cells on in-range pairs sets exactly the listed cells Alive,
leaves every unlisted cell unchanged, gives the same result on any list
with the same members (so duplicate pairs are idempotent), and calling
it again with the same list returns the same grid unchanged. -/
theorem C9_set_cells_additive (g : Universe) (l l₂ : List (Nat × Nat))
    (hinv : g.cells.length = g.width * g.height)
    (hl : ∀ p ∈ l, p.1 < g.height ∧ p.2 < g.width) :
    ∃ g', g.set_cells l = some g' ∧
      (∀ p ∈ l, g'.cells[p.1 * g.width + p.2]? = some Cell.Alive) ∧
      (∀ j : Nat, (¬ ∃ p ∈ l, p.1 * g.width + p.2 = j) →
        g'.cells[j]? = g.cells[j]?) ∧
      ((∀ p : Nat × Nat, p ∈ l₂ ↔ p ∈ l) → g.set_cells l₂ = some g') ∧
      g'.set_cells l = some g' := by
  obtain ⟨g', h1, hw, hh, hlen, hget⟩ := set_cells_spec l g hinv hl
  refine ⟨g', h1, ?_, ?_, ?_, ?_⟩
  · intro p hp
    rw [hget, if_pos ⟨p, hp, rfl⟩]
  · intro j hj
    rw [hget, if_neg hj]
  · intro hmem
    obtain ⟨g₂, h2, hw2, hh2, hlen2, hget2⟩ :=
      set_cells_spec l₂ g hinv (fun p hp => hl p ((hmem p).mp hp))
    rw [h2]
    congr 1
    apply Universe.eq_of_fields (by rw [hw2, hw]) (by rw [hh2, hh])
    apply List.ext_getElem?
    intro j
    rw [hget2 j, hget j]
    by_cases hhit : ∃ p ∈ l, p.1 * g.width + p.2 = j
    · obtain ⟨q, hq, he⟩ := hhit
      rw [if_pos ⟨q, (hmem q).mpr hq, he⟩, if_pos ⟨q, hq, he⟩]
    · have hno : ¬ ∃ p ∈ l₂, p.1 * g.width + p.2 = j := by
        rintro ⟨q, hq, he⟩
        exact hhit ⟨q, (hmem q).mp hq, he⟩
      rw [if_neg hno, if_neg hhit]
  · have hinv' : g'.cells.length = g'.width * g'.height := by
      rw [hlen, hw, hh]; exact hinv
    have hl' : ∀ p ∈ l, p.1 < g'.height ∧ p.2 < g'.width := by
      intro p hp
      rw [hh, hw]
      exact hl p hp
    obtain ⟨g₂, h2, hw2, hh2, hlen2, hget2⟩ := set_cells_spec l g' hinv' hl'
    rw [h2]
    congr 1
    apply Universe.eq_of_fields hw2 hh2
    apply List.ext_getElem?
    intro j
    rw [hget2 j]
    by_cases hhit : ∃ p ∈ l, p.1 * g'.width + p.2 = j
    · obtain ⟨q, hq, he⟩ := hhit
      rw [if_pos ⟨q, hq, he⟩]
      have he' : q.1 * g.width + q.2 = j := by rw [← hw]; exact he
      rw [hget j, if_pos ⟨q, hq, he'⟩]
    · rw [if_neg hhit]

/-- C9 witness: seeding (1,1) on the 3 x 3 all-Dead grid, with the
duplicate list [(1,1),(1,1)]. -/
theorem C9_set_cells_additive_witness :
    ∃ g', allDead3.set_cells [(1, 1)] = some g' ∧
      (∀ p ∈ [((1 : Nat), (1 : Nat))],
        g'.cells[p.1 * allDead3.width + p.2]? = some Cell.Alive) ∧
      (∀ j : Nat,
        (¬ ∃ p ∈ [((1 : Nat), (1 : Nat))], p.1 * allDead3.width + p.2 = j) →
        g'.cells[j]? = allDead3.cells[j]?) ∧
      ((∀ p : Nat × Nat, p ∈ [((1 : Nat), (1 : Nat)), (1, 1)] ↔
          p ∈ [((1 : Nat), (1 : Nat))]) →
        allDead3.set_cells [(1, 1), (1, 1)] = some g') ∧
      g'.set_cells [(1, 1)] = some g' :=
  C9_set_cells_additive allDead3 [(1, 1)] [(1, 1), (1, 1)] (by decide) (by decide)

/-- Folding set over the contiguous index window base..base+n
characterizes every position of the buffer. -/
lemma getElem?_foldl_set_range (f : Nat → Cell) (base : Nat) :
    ∀ (n : Nat) (acc : List Cell) (j : Nat),
      ((List.range n).foldl
        (fun a c => a.set (base + c) (f (base + c))) acc)[j]? =
        if base ≤ j ∧ j < base + n ∧ j < acc.length then some (f j)
        else acc[j]? := by
  intro n
  induction n with
  | zero =>
    intro acc j
    rw [List.range_zero, List.foldl_nil, if_neg (by omega)]
  | succ n ih =>
    intro acc j
    rw [List.range_succ, List.foldl_append, List.foldl_cons, List.foldl_nil,
      List.getElem?_set]
    have hlen : ((List.range n).foldl
        (fun a c => a.set (base + c) (f (base + c))) acc).length =
        acc.length :=
      length_foldl_preserve _ (fun a c => List.length_set a _ _) _ acc
    rw [hlen, ih]
    by_cases h1 : base + n = j
    · subst h1
      rw [if_pos rfl]
      by_cases h2 : base + n < acc.length
      · rw [if_pos h2, if_pos (by omega)]
      · rw [if_neg h2, if_neg (by omega)]
        exact (List.getElem?_eq_none (by omega)).symm
    · rw [if_neg h1]
      by_cases h3 : base ≤ j ∧ j < base + n ∧ j < acc.length
      · rw [if_pos h3, if_pos (by omega)]
      · rw [if_neg h3, if_neg (by omega)]

/-- Folding the per-row window writes over all rows characterizes every
position of the grid buffer. -/
lemma getElem?_foldl_set_grid (f : Nat → Cell) (w : Nat) :
    ∀ (h : Nat) (acc : List Cell) (j : Nat),
      ((List.range h).foldl (fun a row =>
        (List.range w).foldl
          (fun a2 col => a2.set (row * w + col) (f (row * w + col))) a)
        acc)[j]? =
        if j < h * w ∧ j < acc.length then some (f j) else acc[j]? := by
  intro h
  induction h with
  | zero =>
    intro acc j
    rw [List.range_zero, List.foldl_nil, if_neg (by omega)]
  | succ h ih =>
    intro acc j
    rw [List.range_succ, List.foldl_append, List.foldl_cons, List.foldl_nil,
      getElem?_foldl_set_range f (h * w) w _ j]
    have hlen : ((List.range h).foldl (fun a row =>
        (List.range w).foldl
          (fun a2 col => a2.set (row * w + col) (f (row * w + col))) a)
        acc).length = acc.length :=
      length_foldl_preserve _
        (fun a row => length_foldl_preserve _
          (fun a2 col => List.length_set a2 _ _) _ a) _ acc
    rw [hlen, ih]
    have hsm : (h + 1) * w = h * w + w := by
      rw [Nat.add_mul, Nat.one_mul]
    by_cases hA : h * w ≤ j ∧ j < h * w + w ∧ j < acc.length
    · rw [if_pos hA, if_pos (by omega)]
    · rw [if_neg hA]
      by_cases hB : j < h * w ∧ j < acc.length
      · rw [if_pos hB, if_pos (by omega)]
      · rw [if_neg hB, if_neg (by omega)]

/-- The spec's rule table agrees with the source's match expression. -/
lemma spec_rule_eq_next_cell (c : Cell) (n : Nat) :
    spec_rule c n = Universe.next_cell c n := by
  cases c <;> simp [spec_rule, Universe.next_cell]

/-- C1: on every grid of positive width and height satisfying the length
invariant, tick keeps the dimensions and replaces the cell vector with
exactly the spec's generation: the rule table applied to every cell,
each live-neighbor count taken against the pre-tick grid, never against
a partially updated buffer. -/
theorem C1_tick_computes_spec_generation (g : Universe)
    (hw : 0 < g.width) (hh : 0 < g.height)
    (hinv : g.cells.length = g.width * g.height) :
    g.tick.width = g.width ∧ g.tick.height = g.height ∧
      g.tick.cells = spec_generation g := by
  refine ⟨rfl, rfl, ?_⟩
  have hcells : g.tick.cells = (List.range g.height).foldl (fun a row =>
      (List.range g.width).foldl (fun a2 col =>
        a2.set (row * g.width + col)
          (Universe.next_cell (g.cells.getD (row * g.width + col) Cell.Dead)
            (g.live_neighbor_count ((row * g.width + col) / g.width)
              ((row * g.width + col) % g.width)))) a) g.cells := by
    show (List.range g.height).foldl (fun a row =>
        (List.range g.width).foldl (fun a2 col =>
          a2.set (g.get_index row col)
            (Universe.next_cell (g.cells.getD (g.get_index row col) Cell.Dead)
              (g.live_neighbor_count row col))) a) g.cells = _
    apply List.foldl_ext
    intro a row hrow
    apply List.foldl_ext
    intro a2 col hcol
    have hc : col < g.width := List.mem_range.mp hcol
    have hdiv : (row * g.width + col) / g.width = row := by
      rw [Nat.add_comm, Nat.add_mul_div_right col row hw,
        Nat.div_eq_of_lt hc, Nat.zero_add]
    have hmod : (row * g.width + col) % g.width = col := by
      rw [Nat.add_comm, Nat.add_mul_mod_self_right, Nat.mod_eq_of_lt hc]
    rw [hdiv, hmod]
    exact rfl
  have hfold := getElem?_foldl_set_grid
    (fun i => Universe.next_cell (g.cells.getD i Cell.Dead)
      (g.live_neighbor_count (i / g.width) (i % g.width)))
    g.width g.height g.cells
  have hspec : ∀ j : Nat, (spec_generation g)[j]? =
      if j < g.height * g.width then
        some (Universe.next_cell (g.cells.getD j Cell.Dead)
          (g.live_neighbor_count (j / g.width) (j % g.width)))
      else none := by
    intro j
    unfold spec_generation
    rw [List.getElem?_map]
    by_cases hj : j < g.height * g.width
    · rw [List.getElem?_range hj, if_pos hj]
      simp [spec_rule_eq_next_cell]
    · rw [@List.getElem?_eq_none _ (List.range (g.height * g.width)) j
        (by rw [List.length_range]; omega), if_neg hj]
      rfl
  have hcomm : g.width * g.height = g.height * g.width := Nat.mul_comm _ _
  apply List.ext_getElem?
  intro j
  rw [hcells, hfold j, hspec j]
  by_cases hj : j < g.height * g.width
  · rw [if_pos ⟨hj, by omega⟩, if_pos hj]
  · rw [if_neg (by omega), if_neg hj]
    exact @List.getElem?_eq_none _ g.cells j (by omega)

/-- C1 witness: the vertical blinker grid. -/
theorem C1_tick_computes_spec_generation_witness :
    0 < blinkerV.width ∧ 0 < blinkerV.height ∧
    blinkerV.cells.length = blinkerV.width * blinkerV.height ∧
    (blinkerV.tick.width = blinkerV.width ∧
      blinkerV.tick.height = blinkerV.height ∧
      blinkerV.tick.cells = spec_generation blinkerV) :=
  ⟨by decide, by decide, by decide,
   C1_tick_computes_spec_generation blinkerV (by decide) (by decide)
     (by decide)⟩
